import Mathlib

/-!
Shallow embedding of the Fortnite shop-sections tracker (`main.py`).

The script polls a catalog endpoint, normalizes each raw shop section into a
comparison record, diffs against a persisted snapshot (ignoring release
dates per section, but including them for the full-mapping persistence
decision), dispatches one webhook notification per changed section, and then
rewrites the snapshot file when the full mapping changed.

JSON dictionaries with a fixed field set are embedded as structures; the
snapshot dictionary (string keys, insertion order irrelevant to `==`) is an
association list compared with a lookup-based equality. Python truthiness on
optional strings (`if s:`) is `strTruthy`. `datetime.fromisoformat` is an
uninterpreted parameter `parseISO : String → Option Int` (returning the Unix
timestamp on success, `none` when the string cannot be parsed); the side
effects of one poll cycle are collected into a `List Effect` trace.
-/

/-- One entry of `metadata.stackRanks`: a context label and an optional
start date, either of which may be absent in the raw JSON. -/
structure StackRank where
  context : Option String
  startDate : Option String
deriving DecidableEq, Repr

/-- One entry of `metadata.offerGroups`, carrying an optional display type. -/
structure OfferGroup where
  displayType : Option String
deriving DecidableEq, Repr

/-- The `metadata` block of a raw section. `background_customTexture` stands
for the nested lookup `metadata.get("background", {}).get("customTexture")`;
absent lists embed as `[]`, matching `metadata.get(..., [])`. -/
structure Metadata where
  background_customTexture : Option String
  offerGroups : List OfferGroup
  stackRanks : List StackRank
deriving DecidableEq, Repr

/-- A raw catalog section as fetched from the API. Optional fields model
`section.get(...)` returning `None` when the key is missing; a missing
`metadata` dictionary embeds as `Metadata.mk none [] []`. -/
structure RawSection where
  sectionID : Option String
  displayName : Option String
  category : Option String
  metadata : Metadata
deriving DecidableEq, Repr

/-- The normalized comparison record built in `process_shop_data`
(the `new_section` dictionary, lines 148-156 of `main.py`). -/
structure NormalizedSection where
  display_name : String
  category : Option String
  background_url : String
  group_count : Nat
  billboard : Nat
  contexts : List String
  release_dates : List String
deriving DecidableEq, Repr

/-- A normalized record with the `release_dates` field removed, i.e. the
dictionary `{k: v for k, v in section.items() if k != "release_dates"}`. -/
structure SectionSansDates where
  display_name : String
  category : Option String
  background_url : String
  group_count : Nat
  billboard : Nat
  contexts : List String
deriving DecidableEq, Repr

/-- Drop the `release_dates` field of a normalized record. -/
def withoutDates (s : NormalizedSection) : SectionSansDates :=
  { display_name := s.display_name
    category := s.category
    background_url := s.background_url
    group_count := s.group_count
    billboard := s.billboard
    contexts := s.contexts }

/-- Python truthiness of an optional string: `None` and `""` are falsy. -/
def strTruthy : Option String → Bool
  | none => false
  | some s => !(s == "")

/-- Python `sorted` on a list of strings: ascending lexicographic order. -/
def sortedStr (l : List String) : List String :=
  l.insertionSort (fun a b => a ≤ b)

/-- The normalized record computed for one raw section
(`main.py` lines 142-156):
`display_name`/`sectionID` default to `"N/A"`, a falsy category becomes
`None`, a falsy background URL becomes `"No Background"`, `group_count`
counts `offerGroups`, `billboard` counts offer groups whose `displayType`
equals `"billboard"`, `contexts` is `sorted(set(...))` of the contexts with
missing ones defaulting to `"Unknown"`, and `release_dates` is `sorted(...)`
of the truthy start dates. -/
def normalize_section (s : RawSection) : NormalizedSection :=
  { display_name := s.displayName.getD "N/A"
    category := if strTruthy s.category then s.category else none
    background_url :=
      if strTruthy s.metadata.background_customTexture then
        s.metadata.background_customTexture.getD ""
      else "No Background"
    group_count := s.metadata.offerGroups.length
    billboard :=
      (s.metadata.offerGroups.filter
        (fun g => g.displayType == some "billboard")).length
    contexts :=
      sortedStr ((s.metadata.stackRanks.map
        (fun r => r.context.getD "Unknown")).dedup)
    release_dates :=
      sortedStr (s.metadata.stackRanks.filterMap
        (fun r => if strTruthy r.startDate then r.startDate else none)) }

/-- The persisted snapshot: the JSON dictionary mapping section identifiers
to normalized records, embedded as an association list in insertion order. -/
abbrev Snapshot := List (String × NormalizedSection)

/-- Python `d.get(k)`: value of the first (only) entry with key `k`. -/
def dictLookup (d : Snapshot) (k : String) : Option NormalizedSection :=
  (d.find? (fun p => decide (p.1 = k))).map Prod.snd

/-- Python `d[k] = v`: overwrite the entry with key `k` in place if present,
otherwise append a fresh entry. -/
def dictInsert (d : Snapshot) (k : String) (v : NormalizedSection) : Snapshot :=
  match d with
  | [] => [(k, v)]
  | p :: rest =>
    if p.1 = k then (k, v) :: rest else p :: dictInsert rest k v

/-- The keys of a snapshot dictionary. -/
def dictKeys (d : Snapshot) : List String := d.map Prod.fst

/-- Python dictionary equality `old_data == new_data`: same value (including
absence) at every key of either side, irrespective of insertion order. -/
def dictEq (a b : Snapshot) : Bool :=
  (dictKeys a ++ dictKeys b).all (fun k => decide (dictLookup a k = dictLookup b k))

/-- The per-section change test of `main.py` lines 160-165: the prior entry
for the section's identifier (`old_data.get(section_id, {})`, an empty
dictionary when absent) and the new record are compared with the
`release_dates` key removed from both sides. An absent prior entry yields
the empty dictionary, which never equals the new record's six-key
dictionary, so the test is `true`. -/
def is_changed (old : Option NormalizedSection) (n : NormalizedSection) : Bool :=
  match old with
  | none => true
  | some o => decide (withoutDates o ≠ withoutDates n)

/-- One named field of a Discord embed. -/
structure EmbedField where
  name : String
  value : String
  inline : Bool
deriving DecidableEq, Repr

/-- Function `to_discord_timestamp`: render a Unix timestamp as a relative-time
marker. -/
def to_discord_timestamp (ts : Int) : String :=
  "<t:" ++ toString ts ++ ":R>"

/-- The list comprehension of `main.py` lines 70-72: render each truthy date
with `to_discord_timestamp(datetime.fromisoformat(date))`, aborting the
whole embed construction (a raised `ValueError`, embedded as `none`) at the
first date `parseISO` cannot parse. -/
def renderAll (parseISO : String → Option Int) : List String → Option (List String)
  | [] => some []
  | d :: rest =>
    match parseISO d with
    | none => none
    | some ts => (renderAll parseISO rest).map (fun r => to_discord_timestamp ts :: r)

/-- Function `create_embed_for_section` (`main.py` lines 60-99): builds the ordered
field list of the notification embed; `none` models the `ValueError` raised
by `datetime.fromisoformat` on an unparseable date. -/
def create_embed_for_section (parseISO : String → Option Int)
    (sec : RawSection) (new_section : NormalizedSection) : Option (List EmbedField) :=
  let background_url := sec.metadata.background_customTexture
  let display_name := sec.displayName.getD "N/A"
  let section_id := sec.sectionID.getD "N/A"
  let category := sec.category
  let background_field :=
    if strTruthy background_url then
      "[Background](" ++ background_url.getD "" ++ ")"
    else "No Background"
  let contexts :=
    if new_section.contexts = [] then "No Context"
    else String.intercalate "\n" new_section.contexts
  let rendered :=
    if new_section.release_dates = [] then some "No Release Dates"
    else
      (renderAll parseISO (new_section.release_dates.filter (fun d => d ≠ ""))).map
        (String.intercalate "\n")
  rendered.map (fun release_dates =>
    [⟨"**Display Name**", display_name, true⟩,
     ⟨"**Section ID**", section_id, true⟩]
    ++ [if strTruthy category then ⟨"**Category**", category.getD "", true⟩
        else ⟨"**Background**", background_field, true⟩]
    ++ ((if strTruthy category then [⟨"**Background**", background_field, true⟩] else [])
        ++ [⟨"**Group Count**", toString new_section.group_count, true⟩]
        ++ (if new_section.billboard > 0 then
              [⟨"**Billboard**", toString new_section.billboard, true⟩]
            else []))
    ++ [⟨"**Context(s)**", contexts, false⟩,
        ⟨"**Possible Release Dates**", release_dates, false⟩])

/-- State of the `old_shop_data.json` file when a cycle reads it. -/
inductive FileState
  | absent
  | corrupt
  | valid (s : Snapshot)
deriving DecidableEq, Repr

/-- Function `read_old_data` (`main.py` lines 21-27): returns the parsed snapshot,
or the empty mapping when the file is absent (`FileNotFoundError`) or holds
invalid JSON (`json.JSONDecodeError`); the second component records whether
the fallback warning was logged instead of an exception propagating. -/
def read_old_data : FileState → Snapshot × Bool
  | .absent => ([], true)
  | .corrupt => ([], true)
  | .valid s => (s, false)

/-- The `sections` array of the catalog response body, nested under
`shopData`; either key may be missing. -/
structure ShopData where
  sections : Option (List RawSection)
deriving DecidableEq, Repr

/-- The decoded catalog response body. -/
structure ShopResponse where
  shopData : Option ShopData
deriving DecidableEq, Repr

/-- The lookup `data.get("shopData", \x7b\x7d).get("sections", [])`. -/
def getSections (r : ShopResponse) : List RawSection :=
  match r.shopData with
  | none => []
  | some sd => sd.sections.getD []

/-- Outcome of `requests.get(API_URL)` followed by `.json()`: a transport
failure (`requests.RequestException`), or a response with a status code, a
body text, and the decoded JSON (`none` when `.json()` raises). -/
inductive FetchResult
  | netError
  | response (status : Nat) (text : String) (json : Option ShopResponse)

/-- Observable side effects of one poll cycle, in order. -/
inductive Effect
  | logNetError
  | logFetchError (status : Nat) (text : String)
  | logJSONError
  | logUnexpectedError
  | dispatch (embed : List EmbedField)
  | save (data : Snapshot)
deriving DecidableEq, Repr

/-- The per-section loop of `process_shop_data` (`main.py` lines 141-168):
normalize each section, record it in `new_data` under its identifier, and
collect one embed per section the change test marks as changed; `error`
models the exception raised out of `create_embed_for_section`. -/
def buildCycle (parseISO : String → Option Int) (old_data : Snapshot) :
    List RawSection → Snapshot → List (List EmbedField) →
    Except Unit (Snapshot × List (List EmbedField))
  | [], new_data, tasks => .ok (new_data, tasks)
  | sec :: rest, new_data, tasks =>
    let section_id := sec.sectionID.getD "N/A"
    let new_section := normalize_section sec
    let new_data := dictInsert new_data section_id new_section
    if is_changed (dictLookup old_data section_id) new_section then
      match create_embed_for_section parseISO sec new_section with
      | none => .error ()
      | some embed => buildCycle parseISO old_data rest new_data (tasks ++ [embed])
    else
      buildCycle parseISO old_data rest new_data tasks

/-- The tail of a successful cycle (`main.py` lines 170-177): await all
dispatch tasks, then save the new mapping iff it differs from the old one. -/
def cycleEffects (old_data new_data : Snapshot) (tasks : List (List EmbedField)) :
    List Effect :=
  tasks.map Effect.dispatch
    ++ (if dictEq old_data new_data then [] else [Effect.save new_data])

/-- One run of `process_shop_data` (`main.py` lines 124-184) as the list of
side effects it performs, given the fetch outcome and the snapshot file
state. -/
def process_shop_data (parseISO : String → Option Int)
    (fetch : FetchResult) (file : FileState) : List Effect :=
  match fetch with
  | .netError => [.logNetError]
  | .response status text json =>
    if status ≠ 200 then
      [.logFetchError status text]
    else
      match json with
      | none => [.logJSONError]
      | some data =>
        let sections := getSections data
        let old_data := (read_old_data file).1
        match buildCycle parseISO old_data sections [] [] with
        | .error _ => [.logUnexpectedError]
        | .ok (new_data, tasks) => cycleEffects old_data new_data tasks

/-- Whether an effect is a snapshot write. -/
def isSave : Effect → Bool
  | .save _ => true
  | _ => false

/-- Whether an effect is a notification dispatch. -/
def isDispatch : Effect → Bool
  | .dispatch _ => true
  | _ => false

/-- A concrete raw section used to exercise the cycle: carries an identifier
and a display name, no category, and empty metadata. -/
def sampleSec : RawSection :=
  ⟨some "s1", some "Hub", none, ⟨none, [], []⟩⟩

/-- A concrete response body holding exactly `sampleSec`. -/
def sampleData : ShopResponse := ⟨some ⟨some [sampleSec]⟩⟩

/-- The embed `create_embed_for_section` produces for `sampleSec`. -/
def sampleEmbed : List EmbedField :=
  [⟨"**Display Name**", "Hub", true⟩,
   ⟨"**Section ID**", "s1", true⟩,
   ⟨"**Background**", "No Background", true⟩,
   ⟨"**Group Count**", "0", true⟩,
   ⟨"**Context(s)**", "No Context", false⟩,
   ⟨"**Possible Release Dates**", "No Release Dates", false⟩]

/-- A concrete raw section whose stack rank carries an unparseable start
date. -/
def badSec : RawSection :=
  ⟨some "s2", some "Gadgets", none, ⟨none, [], [⟨some "C", some "baddate"⟩]⟩⟩

/-- A concrete response body holding exactly `badSec`. -/
def badData : ShopResponse := ⟨some ⟨some [badSec]⟩⟩

/-! ### Helper lemmas -/

theorem sortedStr_sorted (l : List String) :
    (sortedStr l).Sorted (fun a b : String => a ≤ b) :=
  List.sorted_insertionSort _ l

theorem sortedStr_perm (l : List String) : (sortedStr l).Perm l :=
  List.perm_insertionSort _ l

theorem process_shop_data_ok (parseISO : String → Option Int) (text : String)
    (data : ShopResponse) (file : FileState) (new_data : Snapshot)
    (tasks : List (List EmbedField))
    (hok : buildCycle parseISO (read_old_data file).1 (getSections data) [] [] =
      .ok (new_data, tasks)) :
    process_shop_data parseISO (.response 200 text (some data)) file =
      cycleEffects (read_old_data file).1 new_data tasks := by
  simp [process_shop_data, hok]

theorem process_shop_data_error (parseISO : String → Option Int) (text : String)
    (data : ShopResponse) (file : FileState)
    (herr : buildCycle parseISO (read_old_data file).1 (getSections data) [] [] =
      .error ()) :
    process_shop_data parseISO (.response 200 text (some data)) file =
      [.logUnexpectedError] := by
  simp [process_shop_data, herr]

theorem count_filterMap_truthy (l : List StackRank) (d : String) (hd : d ≠ "") :
    (l.filterMap (fun r => if strTruthy r.startDate then r.startDate else none)).count d
      = (l.map (fun r => r.startDate)).count (some d) := by
  induction l with
  | nil => rfl
  | cons r rest ih =>
    match hsd : r.startDate with
    | none =>
      have hfr : (fun q : StackRank =>
          if strTruthy q.startDate then q.startDate else none) r = none := by
        simp [hsd, strTruthy]
      rw [@List.filterMap_cons_none _ _ (fun q : StackRank =>
        if strTruthy q.startDate then q.startDate else none) r rest hfr,
        ih, List.map_cons, List.count_cons, hsd]
      simp
    | some x =>
      by_cases hx : x = ""
      · have hfr : (fun q : StackRank =>
            if strTruthy q.startDate then q.startDate else none) r = none := by
          simp [hsd, hx, strTruthy]
        rw [@List.filterMap_cons_none _ _ (fun q : StackRank =>
          if strTruthy q.startDate then q.startDate else none) r rest hfr,
          ih, List.map_cons, List.count_cons, hsd, hx]
        simp [Ne.symm hd]
      · have hfr : (fun q : StackRank =>
            if strTruthy q.startDate then q.startDate else none) r = some x := by
          simp [hsd, strTruthy, hx]
        rw [@List.filterMap_cons_some _ _ (fun q : StackRank =>
          if strTruthy q.startDate then q.startDate else none) r rest x hfr,
          List.count_cons, ih, List.map_cons, List.count_cons, hsd]
        simp

theorem empty_notMem_filterMap_truthy (l : List StackRank) :
    "" ∉ l.filterMap (fun r => if strTruthy r.startDate then r.startDate else none) := by
  intro hmem
  obtain ⟨r, _, heq⟩ := List.mem_filterMap.mp hmem
  match hsd : r.startDate with
  | none => rw [hsd] at heq; simp [strTruthy] at heq
  | some x =>
    rw [hsd] at heq
    by_cases hx : x = ""
    · subst hx; simp [strTruthy] at heq
    · rw [if_pos (by simp [strTruthy, hx])] at heq
      exact hx (Option.some_injective _ heq)

theorem buildCycle_tasks_mono (parseISO : String → Option Int) (old : Snapshot)
    (sections : List RawSection) :
    ∀ nd ts new_data tasks,
      buildCycle parseISO old sections nd ts = Except.ok (new_data, tasks) →
      ∀ t ∈ ts, t ∈ tasks := by
  induction sections with
  | nil =>
    intro nd ts new_data tasks h t ht
    simp [buildCycle] at h
    exact h.2 ▸ ht
  | cons sec rest ih =>
    intro nd ts new_data tasks h t ht
    simp only [buildCycle] at h
    split at h
    · split at h
      · simp at h
      · exact ih _ _ _ _ h t (List.mem_append_left _ ht)
    · exact ih _ _ _ _ h t ht

theorem buildCycle_changed_mem (parseISO : String → Option Int) (old : Snapshot)
    (sections : List RawSection) :
    ∀ nd ts new_data tasks,
      buildCycle parseISO old sections nd ts = Except.ok (new_data, tasks) →
      ∀ sec ∈ sections,
        is_changed (dictLookup old (sec.sectionID.getD "N/A"))
          (normalize_section sec) = true →
        ∃ embed, create_embed_for_section parseISO sec (normalize_section sec) =
          some embed ∧ embed ∈ tasks := by
  induction sections with
  | nil =>
    intro nd ts new_data tasks _ sec hmem
    simp at hmem
  | cons sec0 rest ih =>
    intro nd ts new_data tasks h sec hmem hch
    rcases List.mem_cons.mp hmem with rfl | hmem'
    · simp only [buildCycle] at h
      rw [hch] at h
      simp only [if_true] at h
      match hres : create_embed_for_section parseISO sec (normalize_section sec) with
      | none =>
        rw [hres] at h
        simp at h
      | some embed =>
        rw [hres] at h
        exact ⟨embed, rfl,
          buildCycle_tasks_mono parseISO old rest _ _ _ _ h embed
            (List.mem_append_right _ (List.mem_singleton.mpr rfl))⟩
    · simp only [buildCycle] at h
      split at h
      · split at h
        · simp at h
        · exact ih _ _ _ _ h sec hmem' hch
      · exact ih _ _ _ _ h sec hmem' hch

theorem renderAll_eq_none_of_mem (parseISO : String → Option Int)
    (l : List String) (d : String) (hd : d ∈ l) (hnone : parseISO d = none) :
    renderAll parseISO l = none := by
  induction l with
  | nil => simp at hd
  | cons x rest ih =>
    rcases List.mem_cons.mp hd with rfl | hmem
    · simp [renderAll, hnone]
    · match hx : parseISO x with
      | none => simp [renderAll, hx]
      | some ts => simp [renderAll, hx, ih hmem]

theorem renderAll_isSome (parseISO : String → Option Int) (l : List String)
    (h : ∀ d ∈ l, (parseISO d).isSome) : (renderAll parseISO l).isSome := by
  induction l with
  | nil => rfl
  | cons x rest ih =>
    match hx : parseISO x with
    | none =>
      have := h x (List.mem_cons_self x rest)
      rw [hx] at this
      simp at this
    | some ts =>
      have hrest := ih (fun d hd => h d (List.mem_cons_of_mem x hd))
      obtain ⟨v, hv⟩ := Option.isSome_iff_exists.mp hrest
      simp [renderAll, hx, hv]

theorem create_embed_none_of_bad_date (parseISO : String → Option Int)
    (sec : RawSection) (n : NormalizedSection) (d : String)
    (hd : d ∈ n.release_dates) (hne : d ≠ "") (hnone : parseISO d = none) :
    create_embed_for_section parseISO sec n = none := by
  have hnonempty : n.release_dates ≠ [] := by
    intro hnil
    rw [hnil] at hd
    simp at hd
  have hren : renderAll parseISO (n.release_dates.filter (fun x => x ≠ "")) = none :=
    renderAll_eq_none_of_mem parseISO _ d
      (List.mem_filter.mpr ⟨hd, by simp [hne]⟩) hnone
  simp only [ne_eq, decide_not] at hren
  simp [create_embed_for_section, if_neg hnonempty, hren]

theorem create_embed_isSome_of_parseable (parseISO : String → Option Int)
    (sec : RawSection) (n : NormalizedSection)
    (h : ∀ d ∈ n.release_dates, (parseISO d).isSome) :
    (create_embed_for_section parseISO sec n).isSome := by
  by_cases hrel : n.release_dates = []
  · simp [create_embed_for_section, hrel]
  · have hsome : (renderAll parseISO (n.release_dates.filter (fun x => x ≠ ""))).isSome :=
      renderAll_isSome parseISO _ (fun d hd => h d (List.mem_filter.mp hd).1)
    obtain ⟨v, hv⟩ := Option.isSome_iff_exists.mp hsome
    simp only [ne_eq, decide_not] at hv
    simp [create_embed_for_section, if_neg hrel, hv]

theorem buildCycle_error_of_bad (parseISO : String → Option Int) (old : Snapshot)
    (sections : List RawSection) :
    ∀ nd ts,
      (∃ sec ∈ sections,
        is_changed (dictLookup old (sec.sectionID.getD "N/A"))
          (normalize_section sec) = true ∧
        create_embed_for_section parseISO sec (normalize_section sec) = none) →
      buildCycle parseISO old sections nd ts = .error () := by
  induction sections with
  | nil =>
    rintro nd ts ⟨sec, hmem, -⟩
    simp at hmem
  | cons sec0 rest ih =>
    rintro nd ts ⟨sec, hmem, hch, hemb⟩
    rcases List.mem_cons.mp hmem with rfl | hmem'
    · simp only [buildCycle]
      rw [hch]
      simp [hemb]
    · simp only [buildCycle]
      split
      · match hres : create_embed_for_section parseISO sec0 (normalize_section sec0) with
        | none => simp [hres]
        | some e =>
          simp only [hres]
          exact ih _ _ ⟨sec, hmem', hch, hemb⟩
      · exact ih _ _ ⟨sec, hmem', hch, hemb⟩

theorem buildCycle_ok_of_parseable (parseISO : String → Option Int) (old : Snapshot)
    (sections : List RawSection) :
    ∀ nd ts,
      (∀ sec ∈ sections, ∀ d ∈ (normalize_section sec).release_dates,
        (parseISO d).isSome) →
      ∃ new_data tasks,
        buildCycle parseISO old sections nd ts = .ok (new_data, tasks) := by
  induction sections with
  | nil =>
    intro nd ts _
    exact ⟨nd, ts, rfl⟩
  | cons sec0 rest ih =>
    intro nd ts h
    simp only [buildCycle]
    split
    · have hsome := create_embed_isSome_of_parseable parseISO sec0
        (normalize_section sec0) (h sec0 (List.mem_cons_self sec0 rest))
      obtain ⟨e, he⟩ := Option.isSome_iff_exists.mp hsome
      rw [he]
      exact ih _ _ (fun sec hmem => h sec (List.mem_cons_of_mem sec0 hmem))
    · exact ih _ _ (fun sec hmem => h sec (List.mem_cons_of_mem sec0 hmem))

theorem dictLookup_nil (k : String) : dictLookup [] k = none := rfl

theorem dictLookup_cons_eq (p : String × NormalizedSection) (rest : Snapshot)
    (k : String) (h : p.1 = k) : dictLookup (p :: rest) k = some p.2 := by
  unfold dictLookup
  rw [List.find?_cons_of_pos _ (by simp [h])]
  rfl

theorem dictLookup_cons_ne (p : String × NormalizedSection) (rest : Snapshot)
    (k : String) (h : p.1 ≠ k) : dictLookup (p :: rest) k = dictLookup rest k := by
  unfold dictLookup
  rw [List.find?_cons_of_neg _ (by simp [h])]

theorem dictLookup_dictInsert_ne (d : Snapshot) (k : String)
    (v : NormalizedSection) (k' : String) (h : k' ≠ k) :
    dictLookup (dictInsert d k v) k' = dictLookup d k' := by
  induction d with
  | nil =>
    rw [show dictInsert [] k v = [(k, v)] from rfl,
      dictLookup_cons_ne ⟨k, v⟩ [] k' (Ne.symm h)]
  | cons p rest ih =>
    simp only [dictInsert]
    by_cases hp : p.1 = k
    · rw [if_pos hp, dictLookup_cons_ne ⟨k, v⟩ rest k' (Ne.symm h),
        dictLookup_cons_ne p rest k' (by rw [hp]; exact Ne.symm h)]
    · rw [if_neg hp]
      by_cases hpk : p.1 = k'
      · rw [dictLookup_cons_eq _ _ _ hpk, dictLookup_cons_eq _ _ _ hpk]
      · rw [dictLookup_cons_ne _ _ _ hpk, dictLookup_cons_ne _ _ _ hpk, ih]

theorem dictEq_cons_nil (p : String × NormalizedSection) (rest : Snapshot) :
    dictEq (p :: rest) [] = false := by
  have h1 : dictLookup (p :: rest) p.1 = some p.2 := dictLookup_cons_eq _ _ _ rfl
  simp [dictEq, dictKeys, List.all_cons, h1, dictLookup_nil]

theorem buildCycle_lookup_none (parseISO : String → Option Int) (old : Snapshot)
    (sections : List RawSection) :
    ∀ nd ts new_data tasks,
      buildCycle parseISO old sections nd ts = Except.ok (new_data, tasks) →
      ∀ sid, dictLookup nd sid = none →
        sid ∉ sections.map (fun s => s.sectionID.getD "N/A") →
        dictLookup new_data sid = none := by
  induction sections with
  | nil =>
    intro nd ts new_data tasks h sid hnd _
    simp [buildCycle] at h
    exact h.1 ▸ hnd
  | cons sec0 rest ih =>
    intro nd ts new_data tasks h sid hnd hnot
    simp only [List.map_cons, List.mem_cons, not_or] at hnot
    obtain ⟨hne0, hnotrest⟩ := hnot
    have hnd' : dictLookup
        (dictInsert nd (sec0.sectionID.getD "N/A") (normalize_section sec0)) sid =
        none := by
      rw [dictLookup_dictInsert_ne _ _ _ _ hne0]
      exact hnd
    simp only [buildCycle] at h
    split at h
    · split at h
      · simp at h
      · exact ih _ _ _ _ h sid hnd' hnotrest
    · exact ih _ _ _ _ h sid hnd' hnotrest

theorem buildCycle_tasks_from (parseISO : String → Option Int) (old : Snapshot)
    (sections : List RawSection) :
    ∀ nd ts new_data tasks,
      buildCycle parseISO old sections nd ts = Except.ok (new_data, tasks) →
      ∀ em ∈ tasks, em ∈ ts ∨ ∃ sec ∈ sections,
        create_embed_for_section parseISO sec (normalize_section sec) = some em := by
  induction sections with
  | nil =>
    intro nd ts new_data tasks h em hem
    simp [buildCycle] at h
    exact Or.inl (h.2 ▸ hem)
  | cons sec0 rest ih =>
    intro nd ts new_data tasks h em hem
    simp only [buildCycle] at h
    split at h
    · match hres : create_embed_for_section parseISO sec0 (normalize_section sec0) with
      | none =>
        rw [hres] at h
        simp at h
      | some e =>
        rw [hres] at h
        rcases ih _ _ _ _ h em hem with hts | ⟨sec, hsec, hemb⟩
        · rcases List.mem_append.mp hts with h1 | h2
          · exact Or.inl h1
          · right
            refine ⟨sec0, List.mem_cons_self _ _, ?_⟩
            rw [hres]
            exact congrArg some (List.mem_singleton.mp h2).symm
        · exact Or.inr ⟨sec, List.mem_cons_of_mem _ hsec, hemb⟩
    · rcases ih _ _ _ _ h em hem with hts | ⟨sec, hsec, hemb⟩
      · exact Or.inl hts
      · exact Or.inr ⟨sec, List.mem_cons_of_mem _ hsec, hemb⟩

/-! ### Claim theorems -/

/-- C1: two normalized records equal on every field except `release_dates`
make the per-section change test return `false`; in general the test on a
present prior record is `true` iff the records differ once `release_dates`
is removed from both sides. -/
theorem c1_is_changed_ignores_release_dates (o n : NormalizedSection) :
    (o.display_name = n.display_name ∧ o.category = n.category ∧
      o.background_url = n.background_url ∧ o.group_count = n.group_count ∧
      o.billboard = n.billboard ∧ o.contexts = n.contexts →
      is_changed (some o) n = false)
    ∧ (is_changed (some o) n = true ↔ withoutDates o ≠ withoutDates n) := by
  constructor
  · rintro ⟨h1, h2, h3, h4, h5, h6⟩
    simp [is_changed, withoutDates, h1, h2, h3, h4, h5, h6]
  · simp [is_changed]

/-- Witness for C1 at two records differing only in `release_dates`. -/
theorem c1_witness :
    is_changed (some ⟨"Featured", none, "No Background", 2, 1, ["A"], ["2024-01-01"]⟩)
      ⟨"Featured", none, "No Background", 2, 1, ["A"], ["2024-02-02"]⟩ = false :=
  (c1_is_changed_ignores_release_dates _ _).1
    ⟨rfl, rfl, rfl, rfl, rfl, rfl⟩

/-- C2: in a successful cycle the snapshot is saved iff the new mapping
differs from the loaded one under full deep (dictionary) equality, release
dates included, and the only mapping ever saved is the new one — the
decision is independent of which sections triggered notifications. -/
theorem c2_save_iff_mapping_changed (parseISO : String → Option Int)
    (text : String) (data : ShopResponse) (file : FileState)
    (new_data : Snapshot) (tasks : List (List EmbedField))
    (hok : buildCycle parseISO (read_old_data file).1 (getSections data) [] [] =
      .ok (new_data, tasks)) :
    (Effect.save new_data ∈
        process_shop_data parseISO (.response 200 text (some data)) file ↔
      dictEq (read_old_data file).1 new_data = false)
    ∧ ∀ d, Effect.save d ∈
        process_shop_data parseISO (.response 200 text (some data)) file →
        d = new_data := by
  rw [process_shop_data_ok parseISO text data file new_data tasks hok]
  simp only [cycleEffects]
  constructor
  · constructor
    · intro hmem
      rcases List.mem_append.mp hmem with hl | hr
      · obtain ⟨em, _, hem⟩ := List.mem_map.mp hl
        exact absurd hem (by simp)
      · rcases hEq : dictEq (read_old_data file).1 new_data with _ | _
        · rfl
        · rw [hEq] at hr
          simp at hr
    · intro hne
      rw [hne]
      simp
  · intro d hmem
    rcases List.mem_append.mp hmem with hl | hr
    · obtain ⟨em, _, hem⟩ := List.mem_map.mp hl
      exact absurd hem (by simp)
    · split at hr
      · simp at hr
      · simp at hr
        exact hr.symm ▸ rfl

/-- Witness for C2: empty prior snapshot, one fetched section — the mapping
changed, so the save effect is present. -/
theorem c2_witness :
    Effect.save [("s1", normalize_section sampleSec)] ∈
        process_shop_data (fun _ => none) (.response 200 "" (some sampleData)) .absent ↔
      dictEq [] [("s1", normalize_section sampleSec)] = false :=
  (c2_save_iff_mapping_changed (fun _ => none) "" sampleData .absent
    [("s1", normalize_section sampleSec)] [sampleEmbed] (by rfl)).1

/-- C5: whenever the embed is built, its field names are, in order: Display
Name, Section ID, then Category when the section carries a (truthy)
category and Background otherwise, then a second-row Background exactly
when a category was present, then Group Count, then Billboard exactly when
the billboard count is positive, then Context(s) and Possible Release
Dates; the last two carry the sentinels `"No Context"` / `"No Release
Dates"` when their lists are empty. -/
theorem c5_embed_field_layout (parseISO : String → Option Int)
    (sec : RawSection) (n : NormalizedSection) (fields : List EmbedField)
    (h : create_embed_for_section parseISO sec n = some fields) :
    fields.map EmbedField.name =
      ["**Display Name**", "**Section ID**"]
      ++ [if strTruthy sec.category then "**Category**" else "**Background**"]
      ++ (if strTruthy sec.category then ["**Background**"] else [])
      ++ ["**Group Count**"]
      ++ (if n.billboard > 0 then ["**Billboard**"] else [])
      ++ ["**Context(s)**", "**Possible Release Dates**"]
    ∧ (n.contexts = [] →
        ∃ f ∈ fields, f.name = "**Context(s)**" ∧ f.value = "No Context")
    ∧ (n.release_dates = [] →
        ∃ f ∈ fields, f.name = "**Possible Release Dates**" ∧
          f.value = "No Release Dates") := by
  simp only [create_embed_for_section] at h
  obtain ⟨rd, hrd, hfields⟩ := Option.map_eq_some'.mp h
  refine ⟨?_, ?_, ?_⟩
  · rw [← hfields]
    by_cases hc : strTruthy sec.category <;> by_cases hb : n.billboard > 0 <;>
      simp [hc, hb]
  · intro hctx
    rw [← hfields]
    by_cases hc : strTruthy sec.category <;> by_cases hb : n.billboard > 0 <;>
      simp [hc, hb, hctx]
  · intro hrel
    rw [if_pos hrel] at hrd
    rw [← hfields, ← Option.some_inj.mp hrd]
    by_cases hc : strTruthy sec.category <;> by_cases hb : n.billboard > 0 <;>
      simp [hc, hb]

/-- Witness for C5: the sample section (no category, zero billboards, empty
context and date lists). -/
theorem c5_witness :
    sampleEmbed.map EmbedField.name =
      ["**Display Name**", "**Section ID**", "**Background**",
       "**Group Count**", "**Context(s)**", "**Possible Release Dates**"] := by
  have h := (c5_embed_field_layout (fun _ => none) sampleSec
    (normalize_section sampleSec) sampleEmbed (by rfl)).1
  simpa [sampleSec, strTruthy, normalize_section] using h

/-- C6: the change test is `true` against an absent prior entry for every
normalized record, and in a successful cycle every fetched section whose
identifier is missing from the loaded snapshot gets its embed formatted and
dispatched. -/
theorem c6_absent_entry_notifies (parseISO : String → Option Int)
    (text : String) (data : ShopResponse) (file : FileState)
    (new_data : Snapshot) (tasks : List (List EmbedField))
    (hok : buildCycle parseISO (read_old_data file).1 (getSections data) [] [] =
      .ok (new_data, tasks)) :
    (∀ n, is_changed none n = true)
    ∧ ∀ sec ∈ getSections data,
        dictLookup (read_old_data file).1 (sec.sectionID.getD "N/A") = none →
        ∃ embed, create_embed_for_section parseISO sec (normalize_section sec) =
          some embed ∧
          Effect.dispatch embed ∈
            process_shop_data parseISO (.response 200 text (some data)) file := by
  refine ⟨fun n => rfl, ?_⟩
  intro sec hmem habs
  obtain ⟨embed, hemb, htask⟩ :=
    buildCycle_changed_mem parseISO (read_old_data file).1 (getSections data)
      [] [] new_data tasks hok sec hmem (by rw [habs]; rfl)
  refine ⟨embed, hemb, ?_⟩
  rw [process_shop_data_ok parseISO text data file new_data tasks hok]
  simp only [cycleEffects]
  exact List.mem_append_left _ (List.mem_map_of_mem _ htask)

/-- Witness for C6: the sample section is absent from the empty snapshot and
its embed is dispatched. -/
theorem c6_witness :
    ∃ embed, create_embed_for_section (fun _ => none) sampleSec
        (normalize_section sampleSec) = some embed ∧
      Effect.dispatch embed ∈
        process_shop_data (fun _ => none) (.response 200 "" (some sampleData)) .absent :=
  (c6_absent_entry_notifies (fun _ => none) "" sampleData .absent
      [("s1", normalize_section sampleSec)] [sampleEmbed] (by rfl)).2
    sampleSec (by simp [sampleData, getSections]) (by decide)

/-- C4: for every raw section, normalization yields a sorted duplicate-free
context list whose members are exactly the contexts over `stackRanks`
(missing ones defaulting to `"Unknown"`), and a sorted release-date list
holding each present non-empty `startDate` with its multiplicity. -/
theorem c4_normalization_shape (s : RawSection) :
    (normalize_section s).contexts.Sorted (fun a b : String => a ≤ b)
    ∧ (normalize_section s).contexts.Nodup
    ∧ (∀ c, c ∈ (normalize_section s).contexts ↔
        c ∈ s.metadata.stackRanks.map (fun r => r.context.getD "Unknown"))
    ∧ (normalize_section s).release_dates.Sorted (fun a b : String => a ≤ b)
    ∧ (∀ d, d ≠ "" → (normalize_section s).release_dates.count d =
        (s.metadata.stackRanks.map (fun r => r.startDate)).count (some d))
    ∧ (normalize_section s).release_dates.count "" = 0 := by
  refine ⟨sortedStr_sorted _, ?_, ?_, sortedStr_sorted _, ?_, ?_⟩
  · exact (sortedStr_perm _).nodup_iff.mpr (List.nodup_dedup _)
  · intro c
    exact ((sortedStr_perm _).mem_iff).trans (List.mem_dedup)
  · intro d hd
    exact ((sortedStr_perm _).count_eq d).trans (count_filterMap_truthy _ d hd)
  · exact ((sortedStr_perm _).count_eq "").trans
      (List.count_eq_zero.mpr (empty_notMem_filterMap_truthy _))

/-- Witness for C4 on a section with duplicate contexts, a missing context,
an empty and a missing start date. -/
theorem c4_witness :
    (normalize_section
        ⟨some "s3", some "Row", none,
          ⟨none, [],
            [⟨some "B", some "2024-01-02"⟩, ⟨none, some ""⟩,
             ⟨some "B", none⟩, ⟨some "A", some "2024-01-01"⟩]⟩⟩).release_dates.count
        "2024-01-01"
      = ([some "2024-01-02", some "", none, some "2024-01-01"] :
          List (Option String)).count (some "2024-01-01") :=
  (c4_normalization_shape _).2.2.2.2.1 "2024-01-01" (by decide)

/-- C3: in the effect trace of any poll cycle, every snapshot save comes
after every notification dispatch — the trace splits into a save-free
prefix followed by a dispatch-free suffix. -/
theorem c3_save_after_dispatches (parseISO : String → Option Int)
    (fetch : FetchResult) (file : FileState) :
    ∃ D S, process_shop_data parseISO fetch file = D ++ S ∧
      (∀ e ∈ D, isSave e = false) ∧ (∀ e ∈ S, isDispatch e = false) := by
  match fetch with
  | .netError =>
    exact ⟨[], [.logNetError], rfl, by simp, by simp [isDispatch]⟩
  | .response status text json =>
    by_cases hs : status ≠ 200
    · refine ⟨[], [.logFetchError status text], ?_, by simp, by simp [isDispatch]⟩
      simp [process_shop_data, hs]
    · match json with
      | none =>
        refine ⟨[], [.logJSONError], ?_, by simp, by simp [isDispatch]⟩
        simp [process_shop_data, hs]
      | some data =>
        match h : buildCycle parseISO (read_old_data file).1 (getSections data) [] [] with
        | .error () =>
          refine ⟨[], [.logUnexpectedError], ?_, by simp, by simp [isDispatch]⟩
          simp [process_shop_data, hs, h]
        | .ok (new_data, tasks) =>
          refine ⟨tasks.map Effect.dispatch,
            if dictEq (read_old_data file).1 new_data then [] else [Effect.save new_data],
            ?_, ?_, ?_⟩
          · simp only [ne_eq, not_not] at hs
            subst hs
            rw [process_shop_data_ok parseISO text data file new_data tasks h]
            rfl
          · intro e he
            obtain ⟨em, _, rfl⟩ := List.mem_map.mp he
            rfl
          · intro e he
            split at he
            · simp at he
            · simp at he
              subst he
              rfl

/-- C7: a non-200 fetch status aborts the cycle: the only effect is the
error log carrying the status and body; nothing is dispatched and the
snapshot is not written. -/
theorem c7_non_200_aborts (parseISO : String → Option Int) (status : Nat)
    (text : String) (json : Option ShopResponse) (file : FileState)
    (h : status ≠ 200) :
    process_shop_data parseISO (.response status text json) file =
      [.logFetchError status text]
    ∧ ∀ e ∈ process_shop_data parseISO (.response status text json) file,
        isDispatch e = false ∧ isSave e = false := by
  have htr : process_shop_data parseISO (.response status text json) file =
      [.logFetchError status text] := by
    simp [process_shop_data, h]
  refine ⟨htr, ?_⟩
  rw [htr]
  intro e he
  simp at he
  subst he
  exact ⟨rfl, rfl⟩

/-- Witness for C7 at an HTTP 500 response. -/
theorem c7_witness :
    process_shop_data (fun _ => none) (.response 500 "server error" none) .absent =
      [.logFetchError 500 "server error"] :=
  (c7_non_200_aborts (fun _ => none) 500 "server error" none .absent
    (by decide)).1

/-- C9: if some section the diff marks as changed carries a non-empty start
date `parseISO` cannot parse, the whole cycle aborts at embed construction:
its only effect is the unexpected-error log, so no notification is
dispatched and the snapshot is not rewritten; when every release date of
every section parses, the error branch is unreachable and the loop
succeeds. -/
theorem c9_unparseable_date_aborts (parseISO : String → Option Int)
    (text : String) (data : ShopResponse) (file : FileState) :
    ((∃ sec ∈ getSections data,
        is_changed (dictLookup (read_old_data file).1 (sec.sectionID.getD "N/A"))
          (normalize_section sec) = true ∧
        ∃ d ∈ (normalize_section sec).release_dates, d ≠ "" ∧ parseISO d = none) →
      process_shop_data parseISO (.response 200 text (some data)) file =
        [.logUnexpectedError])
    ∧ ((∀ sec ∈ getSections data, ∀ d ∈ (normalize_section sec).release_dates,
          (parseISO d).isSome) →
        ∃ new_data tasks,
          buildCycle parseISO (read_old_data file).1 (getSections data) [] [] =
            .ok (new_data, tasks)) := by
  constructor
  · rintro ⟨sec, hmem, hch, d, hd, hne, hnone⟩
    have herr : buildCycle parseISO (read_old_data file).1 (getSections data) [] [] =
        .error () :=
      buildCycle_error_of_bad parseISO (read_old_data file).1 (getSections data)
        [] []
        ⟨sec, hmem, hch,
          create_embed_none_of_bad_date parseISO sec (normalize_section sec)
            d hd hne hnone⟩
    exact process_shop_data_error parseISO text data file herr
  · intro h
    exact buildCycle_ok_of_parseable parseISO (read_old_data file).1
      (getSections data) [] [] h

/-- Witness for C9: a section with unparseable date `"baddate"` aborts the
cycle with only the error log; with a parser that accepts everything the
same cycle reaches the success branch. -/
theorem c9_witness :
    process_shop_data (fun _ => none) (.response 200 "" (some badData)) .absent =
      [.logUnexpectedError]
    ∧ ∃ new_data tasks,
        buildCycle (fun _ => some 0) (read_old_data .absent).1
          (getSections badData) [] [] = .ok (new_data, tasks) :=
  ⟨(c9_unparseable_date_aborts (fun _ => none) "" badData .absent).1
      ⟨badSec, by simp [badData, getSections], rfl,
        "baddate", by decide, by decide, rfl⟩,
    (c9_unparseable_date_aborts (fun _ => some 0) "" badData .absent).2
      (fun _ _ _ _ => rfl)⟩

/-- C10: identifiers absent from the fetched sections never reach the
persisted mapping and every dispatched notification stems from a fetched
section (removals are silent); when the response body lacks the `shopData`
or `sections` key, the fetched list is empty, nothing is dispatched, and a
previously non-empty snapshot is overwritten with the empty mapping. -/
theorem c10_removed_sections_silent (parseISO : String → Option Int)
    (text : String) (data : ShopResponse) (file : FileState)
    (new_data : Snapshot) (tasks : List (List EmbedField))
    (hok : buildCycle parseISO (read_old_data file).1 (getSections data) [] [] =
      .ok (new_data, tasks)) :
    (∀ sid, sid ∉ (getSections data).map (fun s => s.sectionID.getD "N/A") →
      dictLookup new_data sid = none)
    ∧ (∀ em, Effect.dispatch em ∈
          process_shop_data parseISO (.response 200 text (some data)) file →
        ∃ sec ∈ getSections data,
          create_embed_for_section parseISO sec (normalize_section sec) = some em)
    ∧ ((data.shopData = none ∨ ∃ sd, data.shopData = some sd ∧ sd.sections = none) →
        new_data = []
        ∧ (∀ e ∈ process_shop_data parseISO (.response 200 text (some data)) file,
            isDispatch e = false)
        ∧ ((read_old_data file).1 ≠ [] →
            process_shop_data parseISO (.response 200 text (some data)) file =
              [Effect.save []])) := by
  refine ⟨?_, ?_, ?_⟩
  · intro sid hnot
    exact buildCycle_lookup_none parseISO _ _ _ _ _ _ hok sid rfl hnot
  · intro em hmem
    rw [process_shop_data_ok parseISO text data file new_data tasks hok] at hmem
    simp only [cycleEffects] at hmem
    rcases List.mem_append.mp hmem with hl | hr
    · obtain ⟨t, ht, heq⟩ := List.mem_map.mp hl
      have hte : t = em := by
        cases heq
        rfl
      rcases buildCycle_tasks_from parseISO _ _ _ _ _ _ hok t ht with h0 | hsec
      · simp at h0
      · exact hte ▸ hsec
    · split at hr
      · simp at hr
      · simp at hr
  · intro hempty
    have hsections : getSections data = [] := by
      rcases hempty with hnone | ⟨sd, hsd, hsec⟩
      · simp [getSections, hnone]
      · simp [getSections, hsd, hsec]
    rw [hsections] at hok
    simp [buildCycle] at hok
    obtain ⟨hnd, hts⟩ := hok
    subst hnd
    subst hts
    have htr := process_shop_data_ok parseISO text data file [] []
      (by rw [hsections]; rfl)
    refine ⟨rfl, ?_, ?_⟩
    · intro e he
      rw [htr] at he
      simp only [cycleEffects, List.map_nil, List.nil_append] at he
      split at he
      · simp at he
      · simp at he
        subst he
        rfl
    · intro hold
      rw [htr]
      match hvals : (read_old_data file).1 with
      | [] => exact absurd hvals hold
      | p :: rest =>
        simp [cycleEffects, hvals, dictEq_cons_nil]

/-- Witness for C10: response body without a `shopData` key and a non-empty
prior snapshot — the cycle's only effect is saving the empty mapping. -/
theorem c10_witness :
    process_shop_data (fun _ => none) (.response 200 "" (some ⟨none⟩))
        (.valid [("s1", normalize_section sampleSec)]) = [Effect.save []] :=
  ((c10_removed_sections_silent (fun _ => none) "" ⟨none⟩
      (.valid [("s1", normalize_section sampleSec)]) [] [] rfl).2.2
    (Or.inl rfl)).2.2 (by simp [read_old_data])

/-- C8: loading the snapshot yields the empty mapping, with a warning and no
propagated error, when the file is absent or corrupt; a valid file yields
its parsed mapping. -/
theorem c8_read_old_data_total :
    read_old_data .absent = ([], true) ∧ read_old_data .corrupt = ([], true)
    ∧ ∀ s, read_old_data (.valid s) = (s, false) :=
  ⟨rfl, rfl, fun _ => rfl⟩
